import Mathlib

/-!
# Verification of the `waw` worklet bridge (`src/waw/src/worklet.rs`)

A shallow embedding of the audio-worklet processor bridge: the `Processor`
struct, its `new` / `connect` / `process` methods, the inbound message
handler installed by `connect`, `Emitter::send`, and the two generated JS
artifacts (`js_source` / `register_wasm`).

Effectful Rust/JS code is embedded as explicit state passing; each
externally visible action of a method is also recorded in an event trace so
that ordering properties can be stated.  Operations from crates that are not
part of the sources here (`crate::buffer`, `crate::types`) are either
modelled from the spec (shapes of `AudioBuffer`, `WorkletOptions`,
`InternalMessage`) or taken as parameters of the embedding (the copy
routines, the serde decode, the user module).
-/

namespace WasmWorklet

/-- Modelled from the spec: `AudioBuffer` (from `crate::buffer`, which is not
under src/) is a fixed-arity collection of input and output port buffers whose
port and channel counts are fixed at construction and never resized.  Only the
shape negotiated at construction matters for the claims below; the sample
contents are handled abstractly by the copy routines of the environment. -/
structure AudioBuffer where
  numberOfInputs : Nat
  channelCount : Nat
  numberOfOutputs : Nat
  outputChannelCount : Nat
deriving DecidableEq, Repr

/-- Modelled from the spec: `AudioBuffer::new` allocates buffers sized exactly
to the negotiated topology. -/
def AudioBuffer.new (inputs channels outputs outputChannels : Nat) : AudioBuffer :=
  ⟨inputs, channels, outputs, outputChannels⟩

/-- Modelled from the spec: `WorkletOptions` (from `crate::types`, not under
src/) carries the four construction options — number of inputs, channel count
per input, number of outputs, channel count per output — "all integers,
validated to be non-negative and convertible to the buffer layer's sizing". -/
structure WorkletOptions where
  number_of_inputs : Int
  channel_count : Int
  number_of_outputs : Int
  output_channel_count : Int
deriving DecidableEq, Repr

/-- Rust's fallible conversion of an integer to an unsigned size
(`try_into`): succeeds exactly on non-negative values. -/
def tryIntoNat (i : Int) : Option Nat :=
  if 0 ≤ i then some i.toNat else none

/-- `InternalMessage` (from `crate::types`, not under src/): the reserved
control message set, currently the single variant `Destroy`. -/
inductive InternalMessage where
  | destroy
deriving DecidableEq, Repr

/-- State of `Processor<M>` (worklet.rs 110-117): the user module behind the
`Arc<Mutex<_>>`, the atomic `enabled` flag, the audio buffer, the param buffer
(of abstract type `P`, standing for `ParamBuffer<M::Param>`), and whether
`connect` has installed the message callback (`message_callback`). -/
structure Processor (M P : Type) where
  rs_processor : M
  enabled : Bool
  audio : AudioBuffer
  params : P
  message_callback_installed : Bool
deriving DecidableEq, Repr

/-- The external operations the worklet code calls, over which the embedding
is parametric: the buffer-layer copy routines (`crate::buffer`, not under
src/), the user module's `process` and `on_command` (the `AudioModule` trait
implementation), and the JS-side conversions `serde_wasm_bindgen::from_value`
(decoding a payload as `InternalMessage`) and `JsValue → Command`.
`I`, `O`, `V` are the raw JS input array, output array and params object;
`JsV` is the type of inbound message payloads; `Cmd` is the user Command. -/
structure Env (M P I O V JsV Cmd : Type) where
  copy_from_input : AudioBuffer → I → AudioBuffer
  copy_from_params : P → V → P
  module_process : M → AudioBuffer → P → M × AudioBuffer
  copy_to_output : AudioBuffer → O → O
  from_value : JsV → Option InternalMessage
  intoCommand : JsV → Cmd
  on_command : M → Cmd → M

variable {M P I O V JsV Cmd : Type}

/-- The externally visible steps of one `Processor::process` call. -/
inductive ProcessStep where
  | copyFromInput
  | copyFromParams
  | lockAcquire
  | moduleProcess
  | lockRelease
  | copyToOutput
  | readEnabled
deriving DecidableEq, Repr

/-- Result of one `Processor::process` call: the updated processor state, the
raw output after `copy_to_output` wrote into it, the returned boolean, and
the trace of steps taken. -/
structure ProcessOutcome (M P O : Type) where
  state : Processor M P
  rawOutput : O
  result : Bool
  trace : List ProcessStep
deriving DecidableEq, Repr

/-- `Processor::process` (worklet.rs 179-191), statement by statement:
`self.audio.copy_from_input(input)`, then
`self.params.copy_from_params(params)`, then the module lock is taken and
`process` invoked on the two buffers (the module may mutate itself and the
audio buffer), then `self.audio.copy_to_output(output)`, and finally the
value of `self.enabled` is loaded and returned. -/
def Processor.process (env : Env M P I O V JsV Cmd) (self : Processor M P)
    (input : I) (output : O) (params : V) : ProcessOutcome M P O :=
  let audio1 := env.copy_from_input self.audio input
  let params1 := env.copy_from_params self.params params
  let locked := env.module_process self.rs_processor audio1 params1
  let output1 := env.copy_to_output locked.2 output
  let result := self.enabled
  { state := { self with rs_processor := locked.1, audio := locked.2, params := params1 }
    rawOutput := output1
    result := result
    trace := [.copyFromInput, .copyFromParams, .lockAcquire, .moduleProcess,
              .lockRelease, .copyToOutput, .readEnabled] }

/-- The externally visible actions of the inbound message callback. -/
inductive HandlerEvent (Cmd : Type) where
  | storeEnabledFalse
  | lockAcquire
  | onCommand (command : Cmd)
  | lockRelease
deriving DecidableEq, Repr

/-- The message callback installed by `Processor::connect` (worklet.rs
152-165): try `serde_wasm_bindgen::from_value::<InternalMessage>` on the
payload; on success act internally (`Destroy` stores `false` into `enabled`);
on failure take the module lock and call `on_command` with the payload
converted to the user Command type. -/
def messageHandler (env : Env M P I O V JsV Cmd) (st : Processor M P) (data : JsV) :
    Processor M P × List (HandlerEvent Cmd) :=
  match env.from_value data with
  | some internal_message =>
    match internal_message with
    | .destroy => ({ st with enabled := false }, [.storeEnabledFalse])
  | none =>
    ({ st with rs_processor := env.on_command st.rs_processor (env.intoCommand data) },
     [.lockAcquire, .onCommand (env.intoCommand data), .lockRelease])

/-- `Processor::connect` (worklet.rs 148-176): installs the message callback
on the port and starts it. -/
def Processor.connect (self : Processor M P) : Processor M P :=
  { self with message_callback_installed := true }

/-- `Processor::new` (worklet.rs 120-145): reads `options` off the JS
processor (`expect` aborts when missing, modelled as `Except.error`), converts
the four sizes with `try_into().unwrap()` (aborts when a value is not
convertible), allocates the `AudioBuffer` from exactly those sizes, and
returns a processor whose `enabled` flag is `true` and whose message callback
is not yet installed. -/
def Processor.new (rs_processor : M) (defaultParams : P)
    (jsOptions : Option WorkletOptions) : Except String (Processor M P) :=
  match jsOptions with
  | none => .error "Can't find options on AudioWorkletProcessor"
  | some options =>
    match tryIntoNat options.number_of_inputs, tryIntoNat options.channel_count,
        tryIntoNat options.number_of_outputs, tryIntoNat options.output_channel_count with
    | some i, some c, some o, some oc =>
      .ok { rs_processor := rs_processor
            enabled := true
            audio := AudioBuffer.new i c o oc
            params := defaultParams
            message_callback_installed := false }
    | _, _, _, _ => .error "called Option::unwrap on a None value"

/-- Whether an `Except` is a success. -/
def exceptOk {ε α : Type} : Except ε α → Bool
  | .ok _ => true
  | .error _ => false

/-- `Emitter::send` (worklet.rs 44-47):
`self.port.post_message(&event.into()).ok();` — the event is converted by
`into`, posted, and the posting outcome (supplied by the environment as
`post_message`) has its error discarded by `.ok()`.  The list is the port's
log of successfully posted messages; the function's value is unit
regardless of the outcome. -/
def Emitter.send {E Err : Type} (eventInto : E → JsV)
    (post_message : JsV → Except Err Unit)
    (posted : List JsV) (event : E) : List JsV × Unit :=
  match post_message (eventInto event) with
  | .ok _ => (posted ++ [eventInto event], ())
  | .error _ => (posted, ())

/-! ## The rendering-context driver

`js_source` (worklet.rs 226-232) generates the JS `process` wrapper
```
if (this.processor && !this.processor.process(inputs, outputs, parameters)) {
    this.processor.free(); return false;
};
return true
```
and the Web Audio contract (spec: "Returning false signals the caller … to
release this Processor and cease future invocations") means the host never
invokes the wrapper again after it returned false.  `SysState` couples the
`Processor` state with `procAlive` (`this.processor` set and not freed) and
`hostActive` (the rendering context still schedules the wrapper). -/

/-- Combined state of the processor, the JS wrapper and the rendering host. -/
structure SysState (M P : Type) where
  proc : Processor M P
  procAlive : Bool
  hostActive : Bool
deriving DecidableEq, Repr

/-- Observable events of a system run: a `process` call with its returned
boolean, an `InternalMessage::Destroy` handled internally, or a user command
forwarded to `on_command`. -/
inductive SysEvent where
  | processCall (result : Bool)
  | destroyHandled
  | commandHandled
deriving DecidableEq, Repr

/-- External stimuli: a render quantum scheduled by the host, or a message
delivered on the port. -/
inductive SysAction (I O V JsV : Type) where
  | quantum (input : I) (output : O) (params : V)
  | message (data : JsV)

/-- Project the handler's events onto system-level events. -/
def handlerEventsSys : List (HandlerEvent Cmd) → List SysEvent
  | [] => []
  | .storeEnabledFalse :: rest => SysEvent.destroyHandled :: handlerEventsSys rest
  | .onCommand _ :: rest => SysEvent.commandHandled :: handlerEventsSys rest
  | .lockAcquire :: rest => handlerEventsSys rest
  | .lockRelease :: rest => handlerEventsSys rest

/-- One step of the driver.  A quantum runs the generated JS wrapper: when the
host is active and the processor alive, `Processor::process` runs and a
`false` return frees the processor and deactivates the host; a message runs
the callback installed by `connect`. -/
def sysStep (env : Env M P I O V JsV Cmd) (st : SysState M P) :
    SysAction I O V JsV → SysState M P × List SysEvent
  | .quantum input output params =>
    if st.hostActive then
      if st.procAlive then
        let r := Processor.process env st.proc input output params
        if r.result then
          ({ st with proc := r.state }, [.processCall true])
        else
          ({ proc := r.state, procAlive := false, hostActive := false }, [.processCall false])
      else (st, [])
    else (st, [])
  | .message data =>
    let h := messageHandler env st.proc data
    ({ st with proc := h.1 }, handlerEventsSys h.2)

/-- Run the driver over a list of stimuli, collecting the event trace. -/
def sysRun (env : Env M P I O V JsV Cmd) (st : SysState M P) :
    List (SysAction I O V JsV) → SysState M P × List SysEvent
  | [] => (st, [])
  | a :: rest =>
    let s1 := sysStep env st a
    let s2 := sysRun env s1.1 rest
    (s2.1, s1.2 ++ s2.2)

/-- Whether a system event is a `process` invocation. -/
def isProcessCall : SysEvent → Bool
  | .processCall _ => true
  | _ => false

/-- Number of `process` invocations in a trace. -/
def processCallCount (tr : List SysEvent) : Nat :=
  tr.countP isProcessCall

/-! ## The generated bootstrap scripts -/

/-- Observable actions of the generated adapter class (`js_source`). -/
inductive AdapterEvent where
  | compileWasm
  | initSync
  | constructProcessor
  | postMethodMessage (method : String)
  | connectCalled
deriving DecidableEq, Repr

/-- The `init` method of the processor class generated by `js_source`
(worklet.rs 213-224): when a wasm payload was passed through the construction
options it is compiled and `bindgen.initSync` run; then the native-backed
processor instance is constructed, the fixed completion message
`{ method: 'send_wasm_program_done' }` is posted on the port, and
`connect()` is called. -/
def adapterInit (hasWasmSrc : Bool) : List AdapterEvent :=
  (if hasWasmSrc then [.compileWasm, .initSync] else []) ++
  [.constructProcessor, .postMethodMessage "send_wasm_program_done", .connectCalled]

/-- The shared bindings of the `AudioWorkletGlobalScope`: `globalThis.bindgen`
and `globalThis.init`, absent until a loader script assigns them. -/
structure GlobalScope (B J : Type) where
  bindgen : Option B
  init : Option J
deriving DecidableEq, Repr

/-- The loader script generated by `register_wasm` (worklet.rs 253-260):
`globalThis.bindgen ||= _bindgen; globalThis.init ||= _init` — each binding is
assigned only when absent.  Returns the updated scope together with two flags
recording whether the respective assignment (the initialization side effect)
actually ran. -/
def installLoader {B J : Type} (b : B) (j : J) (g : GlobalScope B J) :
    GlobalScope B J × Bool × Bool :=
  (⟨some (g.bindgen.getD b), some (g.init.getD j)⟩, g.bindgen.isNone, g.init.isNone)

/-! ## Helper lemmas -/

/-- The returned boolean of `process` is the `enabled` flag. -/
theorem process_result (env : Env M P I O V JsV Cmd) (self : Processor M P)
    (input : I) (output : O) (params : V) :
    (Processor.process env self input output params).result = self.enabled := rfl

/-- `process` does not write the `enabled` flag. -/
theorem process_preserves_enabled (env : Env M P I O V JsV Cmd) (self : Processor M P)
    (input : I) (output : O) (params : V) :
    (Processor.process env self input output params).state.enabled = self.enabled := rfl

/-- The `enabled` flag after the message callback: it is written (to `false`)
exactly when the payload decodes as an `InternalMessage`, else unchanged. -/
theorem messageHandler_enabled (env : Env M P I O V JsV Cmd) (st : Processor M P)
    (data : JsV) :
    (messageHandler env st data).1.enabled =
      (match env.from_value data with
       | some _ => false
       | none => st.enabled) := by
  unfold messageHandler
  cases h : env.from_value data with
  | some m => cases m; rfl
  | none => rfl

/-- Projected handler events contain no `processCall`. -/
theorem handlerEventsSys_count (evs : List (HandlerEvent Cmd)) :
    processCallCount (handlerEventsSys evs) = 0 := by
  induction evs with
  | nil => rfl
  | cons e rest ih =>
    cases e <;>
      simpa [handlerEventsSys, processCallCount, List.countP_cons, isProcessCall] using ih

/-- A trace with no `process` calls contains no `processCall` event. -/
theorem count_zero_no_processCall (tr : List SysEvent) (h : processCallCount tr = 0) :
    ∀ r, SysEvent.processCall r ∉ tr := by
  intro r hmem
  have := (List.countP_eq_zero.mp h) _ hmem
  simp [isProcessCall] at this

/-- Once the rendering host has stopped scheduling the wrapper, no further
`process` call occurs and the host stays stopped. -/
theorem sysRun_inactive (env : Env M P I O V JsV Cmd) (acts : List (SysAction I O V JsV)) :
    ∀ st : SysState M P, st.hostActive = false →
      processCallCount (sysRun env st acts).2 = 0 ∧
      (sysRun env st acts).1.hostActive = false := by
  induction acts with
  | nil => exact fun st h => ⟨rfl, h⟩
  | cons a rest ih =>
    intro st h
    cases a with
    | quantum input output params =>
      have hstep : sysStep env st (SysAction.quantum input output params) = (st, []) := by
        simp [sysStep, h]
      simp only [sysRun, hstep, List.nil_append]
      exact ih st h
    | message data =>
      have hact : ((sysStep env st (SysAction.message data)).1).hostActive = false := by
        simp [sysStep, h]
      simp only [sysRun, processCallCount, List.countP_append] at *
      refine ⟨?_, (ih _ hact).2⟩
      have h1 : processCallCount (sysStep env st (SysAction.message data)).2 = 0 := by
        simp [sysStep, handlerEventsSys_count]
      simp only [processCallCount] at h1
      simp [h1, (ih _ hact).1]

/-- Once the flag is down, any run keeps it down. -/
theorem sysRun_enabled_false (env : Env M P I O V JsV Cmd)
    (acts : List (SysAction I O V JsV)) :
    ∀ st : SysState M P, st.proc.enabled = false →
      (sysRun env st acts).1.proc.enabled = false := by
  induction acts with
  | nil => exact fun st h => h
  | cons a rest ih =>
    intro st h
    cases a with
    | quantum input output params =>
      simp only [sysRun]
      apply ih
      by_cases hA : st.hostActive
      · by_cases hP : st.procAlive
        · simp [sysStep, hA, hP, process_result, h, process_preserves_enabled]
        · simp [sysStep, hA, hP, h]
      · simp [sysStep, hA, h]
    | message data =>
      simp only [sysRun]
      apply ih
      have := messageHandler_enabled env st.proc data
      simp only [sysStep]
      cases hf : env.from_value data <;> simp [hf, h] at this ⊢ <;> simp [this]

/-- From a state whose flag is down, a run performs at most one `process`
call and every performed call returns `false`. -/
theorem sysRun_disabled (env : Env M P I O V JsV Cmd)
    (acts : List (SysAction I O V JsV)) :
    ∀ st : SysState M P, st.proc.enabled = false →
      processCallCount (sysRun env st acts).2 ≤ 1 ∧
      ∀ r, SysEvent.processCall r ∈ (sysRun env st acts).2 → r = false := by
  induction acts with
  | nil => exact fun st _ => ⟨by simp [sysRun, processCallCount], by simp [sysRun]⟩
  | cons a rest ih =>
    intro st h
    cases a with
    | quantum input output params =>
      by_cases hA : st.hostActive
      · by_cases hP : st.procAlive
        · have hres : (Processor.process env st.proc input output params).result = false := by
            rw [process_result]; exact h
          have hstep : sysStep env st (SysAction.quantum input output params) =
              ({ proc := (Processor.process env st.proc input output params).state,
                 procAlive := false, hostActive := false },
               [SysEvent.processCall false]) := by
            simp [sysStep, hA, hP, hres]
          have hrest := sysRun_inactive env rest
            ({ proc := (Processor.process env st.proc input output params).state,
               procAlive := false, hostActive := false } : SysState M P) rfl
          constructor
          · simp only [sysRun, hstep, processCallCount, List.countP_append]
            simp only [processCallCount] at hrest
            simp [hrest.1, List.countP_cons, isProcessCall]
          · intro r hmem
            simp only [sysRun, hstep, List.mem_append] at hmem
            rcases hmem with hmem | hmem
            · simp at hmem; exact hmem
            · exact absurd hmem (count_zero_no_processCall _ hrest.1 r)
        · have hstep : sysStep env st (SysAction.quantum input output params) = (st, []) := by
            simp [sysStep, hA, hP]
          simp only [sysRun, hstep, List.nil_append]
          exact ih st h
      · have hstep : sysStep env st (SysAction.quantum input output params) = (st, []) := by
          simp [sysStep, hA]
        simp only [sysRun, hstep, List.nil_append]
        exact ih st h
    | message data =>
      have hen : ((sysStep env st (SysAction.message data)).1).proc.enabled = false := by
        have := messageHandler_enabled env st.proc data
        simp only [sysStep]
        cases hf : env.from_value data <;> simp [hf, h] at this ⊢ <;> simp [this]
      have hcnt : processCallCount (sysStep env st (SysAction.message data)).2 = 0 := by
        simp [sysStep, handlerEventsSys_count]
      obtain ⟨ihc, ihm⟩ := ih _ hen
      constructor
      · simp only [sysRun, processCallCount, List.countP_append]
        simp only [processCallCount] at hcnt ihc
        omega
      · intro r hmem
        simp only [sysRun, List.mem_append] at hmem
        rcases hmem with hmem | hmem
        · exact absurd hmem (count_zero_no_processCall _ hcnt r)
        · exact ihm r hmem

/-- Characterization of a successful `try_into`. -/
theorem tryIntoNat_some {i : Int} {n : Nat} (h : tryIntoNat i = some n) :
    0 ≤ i ∧ n = i.toNat := by
  unfold tryIntoNat at h
  split at h
  · exact ⟨by assumption, (Option.some.injEq ..).mp h |>.symm⟩
  · exact absurd h (by simp)

/-- `try_into` fails on negative values. -/
theorem tryIntoNat_neg {i : Int} (h : i < 0) : tryIntoNat i = none := by
  unfold tryIntoNat
  split
  · omega
  · rfl

/-! ## Claim theorems -/

/-- C1: every `Processor::process(input, output, params)` call takes, in this
exact order, the steps: copy raw input into the AudioBuffer, copy raw
automation into the ParamBuffer, acquire the module lock and invoke the
module's `process` on the two buffers and release the lock, copy the
AudioBuffer output back to the raw output, and finally return the current
value of the enabled flag. -/
theorem process_step_order (env : Env M P I O V JsV Cmd) (self : Processor M P)
    (input : I) (output : O) (params : V) :
    (Processor.process env self input output params).trace =
      [ProcessStep.copyFromInput, ProcessStep.copyFromParams, ProcessStep.lockAcquire,
       ProcessStep.moduleProcess, ProcessStep.lockRelease, ProcessStep.copyToOutput,
       ProcessStep.readEnabled] ∧
    (Processor.process env self input output params).result = self.enabled ∧
    (Processor.process env self input output params).state.params =
      env.copy_from_params self.params params ∧
    (Processor.process env self input output params).state.rs_processor =
      (env.module_process self.rs_processor (env.copy_from_input self.audio input)
        (env.copy_from_params self.params params)).1 ∧
    (Processor.process env self input output params).state.audio =
      (env.module_process self.rs_processor (env.copy_from_input self.audio input)
        (env.copy_from_params self.params params)).2 ∧
    (Processor.process env self input output params).rawOutput =
      env.copy_to_output
        (env.module_process self.rs_processor (env.copy_from_input self.audio input)
          (env.copy_from_params self.params params)).2 output :=
  ⟨rfl, rfl, rfl, rfl, rfl, rfl⟩

/-- C2: the handler installed by `connect` either decodes the payload as an
`InternalMessage` — then it acts internally (Destroy stores `false` into the
flag) and never calls `on_command` — or, when decoding fails, calls
`on_command` exactly once with the converted Command while holding the module
lock. -/
theorem connect_handler_dispatch (env : Env M P I O V JsV Cmd) (st : Processor M P)
    (data : JsV) :
    (∀ msg, env.from_value data = some msg →
      messageHandler env st data =
        ({ st with enabled := false }, [HandlerEvent.storeEnabledFalse])) ∧
    (env.from_value data = none →
      messageHandler env st data =
        ({ st with rs_processor := env.on_command st.rs_processor (env.intoCommand data) },
         [HandlerEvent.lockAcquire, HandlerEvent.onCommand (env.intoCommand data),
          HandlerEvent.lockRelease])) := by
  constructor
  · intro msg h
    cases msg
    unfold messageHandler
    rw [h]
  · intro h
    unfold messageHandler
    rw [h]

/-- C4: `Emitter::send` posts the converted event without waiting; a posting
failure is discarded by `.ok()` and the call returns unit either way — no
error ever propagates. -/
theorem emitter_send_fire_and_forget {E Err : Type} (eventInto : E → JsV)
    (post_message : JsV → Except Err Unit) (posted : List JsV) (event : E) :
    (Emitter.send eventInto post_message posted event).2 = () ∧
    (exceptOk (post_message (eventInto event)) = true →
      (Emitter.send eventInto post_message posted event).1 = posted ++ [eventInto event]) ∧
    (exceptOk (post_message (eventInto event)) = false →
      (Emitter.send eventInto post_message posted event).1 = posted) := by
  unfold Emitter.send exceptOk
  cases post_message (eventInto event) <;> simp

/-- C5: a second Destroy when the flag is already false is a no-op with the
same observable effect as the first: the flag stays false, the module is
never invoked, handling it again returns the same state and the same single
store event, and on an already-false flag the state is unchanged. -/
theorem destroy_message_idempotent (env : Env M P I O V JsV Cmd)
    (st : Processor M P) (data : JsV)
    (hd : env.from_value data = some InternalMessage.destroy) :
    (messageHandler env st data).1.enabled = false ∧
    (messageHandler env st data).1.rs_processor = st.rs_processor ∧
    messageHandler env (messageHandler env st data).1 data =
      ((messageHandler env st data).1, [HandlerEvent.storeEnabledFalse]) ∧
    (∀ c : Cmd, HandlerEvent.onCommand c ∉ (messageHandler env (messageHandler env st data).1 data).2) ∧
    (st.enabled = false → (messageHandler env st data).1 = st) := by
  have h1 : messageHandler env st data =
      (({ st with enabled := false } : Processor M P),
       ([HandlerEvent.storeEnabledFalse] : List (HandlerEvent Cmd))) := by
    unfold messageHandler
    rw [hd]
  refine ⟨by rw [h1], by rw [h1], ?_, ?_, ?_⟩
  · rw [h1]
    unfold messageHandler
    rw [hd]
  · intro c
    rw [h1]
    unfold messageHandler
    rw [hd]
    simp
  · intro h
    rw [h1]
    cases st
    simp_all

/-- C10: a `process` call that will return false (flag already cleared) still
performs the full quantum of work before returning: the trace is the full
step list, and the module/buffer/output updates coincide with those of the
identical call on an enabled processor — the flag is only read after all
processing steps complete. -/
theorem disabled_call_full_quantum (env : Env M P I O V JsV Cmd)
    (self : Processor M P) (h : self.enabled = false)
    (input : I) (output : O) (params : V) :
    (Processor.process env self input output params).result = false ∧
    (Processor.process env self input output params).trace =
      [ProcessStep.copyFromInput, ProcessStep.copyFromParams, ProcessStep.lockAcquire,
       ProcessStep.moduleProcess, ProcessStep.lockRelease, ProcessStep.copyToOutput,
       ProcessStep.readEnabled] ∧
    (Processor.process env self input output params).state.rs_processor =
      (Processor.process env { self with enabled := true } input output params).state.rs_processor ∧
    (Processor.process env self input output params).state.audio =
      (Processor.process env { self with enabled := true } input output params).state.audio ∧
    (Processor.process env self input output params).state.params =
      (Processor.process env { self with enabled := true } input output params).state.params ∧
    (Processor.process env self input output params).rawOutput =
      (Processor.process env { self with enabled := true } input output params).rawOutput :=
  ⟨by rw [process_result, h], rfl, rfl, rfl, rfl, rfl⟩

/-- C3: once a Destroy message has been handled (one `destroyHandled` event),
every continuation of the run contains at most one further `process` call,
and any `process` call that does occur returns false — the Disabled state is
terminal and teardown happens exactly once. -/
theorem destroy_terminates_processing (env : Env M P I O V JsV Cmd)
    (st : SysState M P) (data : JsV) (acts : List (SysAction I O V JsV))
    (hd : env.from_value data = some InternalMessage.destroy) :
    (sysStep env st (SysAction.message data)).2 = [SysEvent.destroyHandled] ∧
    processCallCount (sysRun env (sysStep env st (SysAction.message data)).1 acts).2 ≤ 1 ∧
    ∀ r, SysEvent.processCall r ∈
        (sysRun env (sysStep env st (SysAction.message data)).1 acts).2 → r = false := by
  have hmsg : messageHandler env st.proc data =
      (({ st.proc with enabled := false } : Processor M P),
       ([HandlerEvent.storeEnabledFalse] : List (HandlerEvent Cmd))) := by
    unfold messageHandler
    rw [hd]
  have hstep : sysStep env st (SysAction.message data) =
      ({ st with proc := { st.proc with enabled := false } }, [SysEvent.destroyHandled]) := by
    simp [sysStep, hmsg, handlerEventsSys]
  have hdis := sysRun_disabled env acts (sysStep env st (SysAction.message data)).1
    (by rw [hstep])
  exact ⟨by rw [hstep], hdis.1, hdis.2⟩

/-- C6: the enabled flag starts true at construction; `process` never writes
it; the message callback is the only writer and only ever writes false (on a
successful InternalMessage decode); and once false it stays false over any
system run — Disabled is terminal. -/
theorem enabled_flag_monotone :
    (∀ (M P : Type) (rs : M) (p0 : P) (jsOptions : Option WorkletOptions)
        (st : Processor M P),
        Processor.new rs p0 jsOptions = .ok st → st.enabled = true) ∧
    (∀ (M P I O V JsV Cmd : Type) (env : Env M P I O V JsV Cmd) (self : Processor M P)
        (input : I) (output : O) (params : V),
        (Processor.process env self input output params).state.enabled = self.enabled) ∧
    (∀ (M P I O V JsV Cmd : Type) (env : Env M P I O V JsV Cmd) (st : Processor M P)
        (data : JsV),
        (messageHandler env st data).1.enabled =
          (match env.from_value data with
           | some _ => false
           | none => st.enabled)) ∧
    (∀ (M P I O V JsV Cmd : Type) (env : Env M P I O V JsV Cmd) (st : SysState M P)
        (acts : List (SysAction I O V JsV)),
        st.proc.enabled = false → (sysRun env st acts).1.proc.enabled = false) := by
  refine ⟨?_, ?_, ?_, ?_⟩
  · intro M P rs p0 jsOptions st h
    unfold Processor.new at h
    split at h
    · exact absurd h (by simp)
    · split at h
      · rw [← (Except.ok.injEq ..).mp h]
      · exact absurd h (by simp)
  · intro M P I O V JsV Cmd env self input output params
    exact process_preserves_enabled env self input output params
  · intro M P I O V JsV Cmd env st data
    exact messageHandler_enabled env st data
  · intro M P I O V JsV Cmd env st acts h
    exact sysRun_enabled_false env acts st h

/-- C7: `Processor::new` fails fatally when the construction options are
missing or when one of the four sizes is not convertible (negative), and no
processor — in particular no Connected one — results; on success the
AudioBuffer is allocated sized exactly from the four options and the
processor starts enabled with no callback installed. -/
theorem new_validates_options :
    (∀ (M P : Type) (rs : M) (p0 : P),
      Processor.new rs p0 none =
        (Except.error "Can't find options on AudioWorkletProcessor" :
          Except String (Processor M P))) ∧
    (∀ (M P : Type) (rs : M) (p0 : P) (opts : WorkletOptions),
      (opts.number_of_inputs < 0 ∨ opts.channel_count < 0 ∨
        opts.number_of_outputs < 0 ∨ opts.output_channel_count < 0) →
      exceptOk (Processor.new (P := P) rs p0 (some opts)) = false ∧
      ∀ st : Processor M P, Processor.new rs p0 (some opts) ≠ .ok st) ∧
    (∀ (M P : Type) (rs : M) (p0 : P) (opts : WorkletOptions) (st : Processor M P),
      Processor.new rs p0 (some opts) = .ok st →
        st.audio = AudioBuffer.new opts.number_of_inputs.toNat opts.channel_count.toNat
          opts.number_of_outputs.toNat opts.output_channel_count.toNat ∧
        st.enabled = true ∧ st.message_callback_installed = false) := by
  have key : ∀ (M P : Type) (rs : M) (p0 : P) (opts : WorkletOptions) (st : Processor M P),
      Processor.new rs p0 (some opts) = .ok st →
        (0 ≤ opts.number_of_inputs ∧ 0 ≤ opts.channel_count ∧
          0 ≤ opts.number_of_outputs ∧ 0 ≤ opts.output_channel_count) ∧
        st.audio = AudioBuffer.new opts.number_of_inputs.toNat opts.channel_count.toNat
          opts.number_of_outputs.toNat opts.output_channel_count.toNat ∧
        st.enabled = true ∧ st.message_callback_installed = false := by
    intro M P rs p0 opts st h
    simp only [Processor.new] at h
    split at h
    next i c o oc hi hc ho hoc =>
      obtain ⟨hi0, hieq⟩ := tryIntoNat_some hi
      obtain ⟨hc0, hceq⟩ := tryIntoNat_some hc
      obtain ⟨ho0, hoeq⟩ := tryIntoNat_some ho
      obtain ⟨hoc0, hoceq⟩ := tryIntoNat_some hoc
      rw [← (Except.ok.injEq ..).mp h]
      exact ⟨⟨hi0, hc0, ho0, hoc0⟩, by rw [hieq, hceq, hoeq, hoceq], rfl, rfl⟩
    next => exact absurd h (by simp)
  refine ⟨fun M P rs p0 => rfl, ?_, ?_⟩
  · intro M P rs p0 opts hneg
    have hnotok : ∀ st : Processor M P, Processor.new rs p0 (some opts) ≠ .ok st := by
      intro st h
      obtain ⟨⟨hi0, hc0, ho0, hoc0⟩, -⟩ := key M P rs p0 opts st h
      rcases hneg with h | h | h | h <;> omega
    refine ⟨?_, hnotok⟩
    cases hres : Processor.new (P := P) rs p0 (some opts) with
    | ok st => exact absurd hres (hnotok st)
    | error e => rfl
  · intro M P rs p0 opts st h
    exact (key M P rs p0 opts st h).2

/-- C8: the adapter generated by `js_source` posts the fixed completion
message `{ method: 'send_wasm_program_done' }` exactly once, after the module
instance is constructed and before `connect()` is called, whether or not a
wasm payload was supplied. -/
theorem adapter_completion_message (hasWasmSrc : Bool) :
    (adapterInit hasWasmSrc).count
        (AdapterEvent.postMethodMessage "send_wasm_program_done") = 1 ∧
    ∃ pre, adapterInit hasWasmSrc =
        pre ++ [AdapterEvent.constructProcessor,
                AdapterEvent.postMethodMessage "send_wasm_program_done",
                AdapterEvent.connectCalled] ∧
      ∀ s, AdapterEvent.postMethodMessage s ∉ pre := by
  cases hasWasmSrc with
  | false =>
    refine ⟨by decide, [], rfl, ?_⟩
    intro s
    simp
  | true =>
    refine ⟨by decide, [AdapterEvent.compileWasm, AdapterEvent.initSync], rfl, ?_⟩
    intro s
    simp

/-- C9: installing the loader produced by `register_wasm` a second time into
the same global scope leaves the scope unchanged and performs no assignment
at all — initialization is not re-run and the shared bindings are not
overwritten (the `||=` set-if-absent guard). -/
theorem register_wasm_idempotent {B J : Type} (b b2 : B) (j j2 : J)
    (g : GlobalScope B J) :
    installLoader b2 j2 (installLoader b j g).1 = ((installLoader b j g).1, false, false) :=
  rfl

/-! ## Concrete instances and witnesses -/

/-- A concrete environment over simple carrier types: the module is a counting
`Nat`, payloads are `Bool`, and `true` decodes as `InternalMessage.destroy`. -/
def envW : Env Nat Unit Unit Unit Unit Bool Unit :=
  { copy_from_input := fun a _ => a
    copy_from_params := fun p _ => p
    module_process := fun m a _ => (m + 1, a)
    copy_to_output := fun _ o => o
    from_value := fun j => if j then some InternalMessage.destroy else none
    intoCommand := fun _ => ()
    on_command := fun m _ => m }

/-- Concrete construction options: 1 input with 2 channels, 1 output with 2
channels. -/
def optsW : WorkletOptions := ⟨1, 2, 1, 2⟩

/-- Concrete invalid construction options: a negative channel count. -/
def optsNegW : WorkletOptions := ⟨1, -2, 1, 2⟩

/-- The processor state `Processor::new` builds from `optsW`. -/
def procW : Processor Nat Unit :=
  { rs_processor := 0
    enabled := true
    audio := AudioBuffer.new 1 2 1 2
    params := ()
    message_callback_installed := false }

/-- `procW` with the enabled flag already cleared. -/
def procOffW : Processor Nat Unit := { procW with enabled := false }

/-- A concrete system state: processor alive, host active. -/
def sysW : SysState Nat Unit := { proc := procW, procAlive := true, hostActive := true }

/-- Two render quanta. -/
def actsW : List (SysAction Unit Unit Unit Bool) :=
  [SysAction.quantum () () (), SysAction.quantum () () ()]

/-- Witness for C2 at the concrete payload `false`, which fails the
InternalMessage decode: `on_command` runs once under the lock. -/
theorem connect_handler_dispatch_witness :
    messageHandler envW procW false =
      ({ procW with rs_processor := envW.on_command procW.rs_processor (envW.intoCommand false) },
       [HandlerEvent.lockAcquire, HandlerEvent.onCommand (envW.intoCommand false),
        HandlerEvent.lockRelease]) :=
  (connect_handler_dispatch envW procW false).2 rfl

/-- Witness for C3: after the Destroy payload `true` is handled, running two
further quanta from an alive, active system performs exactly one `process`
call and it returns false. -/
theorem destroy_terminates_processing_witness :
    (sysStep envW sysW (SysAction.message true)).2 = [SysEvent.destroyHandled] ∧
    processCallCount (sysRun envW (sysStep envW sysW (SysAction.message true)).1 actsW).2 ≤ 1 ∧
    (sysRun envW (sysStep envW sysW (SysAction.message true)).1 actsW).2 =
      [SysEvent.processCall false] :=
  ⟨(destroy_terminates_processing envW sysW true actsW rfl).1,
   (destroy_terminates_processing envW sysW true actsW rfl).2.1,
   by decide⟩

/-- Witness for C4 at a posting function that always fails: the call still
returns unit and posts nothing. -/
theorem emitter_send_fire_and_forget_witness :
    (Emitter.send (fun n : Nat => n == 3) (fun _ => Except.error 7) [] 5).2 = () ∧
    (Emitter.send (fun n : Nat => n == 3) (fun _ => Except.error 7) [] 5).1 = [] :=
  ⟨(emitter_send_fire_and_forget (fun n : Nat => n == 3) (fun _ => Except.error 7) [] 5).1,
   (emitter_send_fire_and_forget (fun n : Nat => n == 3) (fun _ => Except.error 7) [] 5).2.2 rfl⟩

/-- Witness for C5: a Destroy payload handled on a processor whose flag is
already false leaves the state exactly unchanged and repeats the single
store event. -/
theorem destroy_message_idempotent_witness :
    (messageHandler envW procOffW true).1.enabled = false ∧
    (messageHandler envW procOffW true).1.rs_processor = procOffW.rs_processor ∧
    messageHandler envW (messageHandler envW procOffW true).1 true =
      ((messageHandler envW procOffW true).1, [HandlerEvent.storeEnabledFalse]) ∧
    (messageHandler envW procOffW true).1 = procOffW :=
  ⟨(destroy_message_idempotent envW procOffW true rfl).1,
   (destroy_message_idempotent envW procOffW true rfl).2.1,
   (destroy_message_idempotent envW procOffW true rfl).2.2.1,
   (destroy_message_idempotent envW procOffW true rfl).2.2.2.2 rfl⟩

/-- Witness for C6: the concrete construction yields an enabled processor, and
a run from a disabled state stays disabled. -/
theorem enabled_flag_monotone_witness :
    procW.enabled = true ∧
    (sysRun envW { proc := procOffW, procAlive := true, hostActive := true } actsW).1.proc.enabled
      = false :=
  ⟨enabled_flag_monotone.1 Nat Unit 0 () (some optsW) procW rfl,
   enabled_flag_monotone.2.2.2 Nat Unit Unit Unit Unit Bool Unit envW
     { proc := procOffW, procAlive := true, hostActive := true } actsW rfl⟩

/-- Witness for C7: construction with a negative channel count fails. -/
theorem new_validates_options_witness :
    exceptOk (Processor.new (P := Unit) 0 () (some optsNegW)) = false :=
  (new_validates_options.2.1 Nat Unit 0 () optsNegW (Or.inr (Or.inl (by decide)))).1

/-- Witness for C10: on the concrete disabled processor the call returns
false yet the module still ran (its counter advanced as in the enabled
run) and the trace is the full step list. -/
theorem disabled_call_full_quantum_witness :
    (Processor.process envW procOffW () () ()).result = false ∧
    (Processor.process envW procOffW () () ()).trace =
      [ProcessStep.copyFromInput, ProcessStep.copyFromParams, ProcessStep.lockAcquire,
       ProcessStep.moduleProcess, ProcessStep.lockRelease, ProcessStep.copyToOutput,
       ProcessStep.readEnabled] ∧
    (Processor.process envW procOffW () () ()).state.rs_processor =
      (Processor.process envW { procOffW with enabled := true } () () ()).state.rs_processor ∧
    (Processor.process envW procOffW () () ()).state.audio =
      (Processor.process envW { procOffW with enabled := true } () () ()).state.audio ∧
    (Processor.process envW procOffW () () ()).state.params =
      (Processor.process envW { procOffW with enabled := true } () () ()).state.params ∧
    (Processor.process envW procOffW () () ()).rawOutput =
      (Processor.process envW { procOffW with enabled := true } () () ()).rawOutput :=
  disabled_call_full_quantum envW procOffW rfl () () ()

end WasmWorklet
